import Mathlib

/-!
# Verification of the Flipkart scraper (flipkart_scraper.py)

Shallow embedding of the scraper's data model and operations:

* `DatabaseManager.insert_products_batch` / `get_product_count` — the
  persistence gateway over an explicit `Store` state, with fault injection
  for the sqlite3 errors the code catches;
* `FlipkartScraper.extract_product_info` / `validate_product` /
  `scrape_page` / `search_products` / `save_products` / `run_scraper` —
  the extraction pipeline, with the rendered page modelled as an oracle
  from URLs to page outcomes (timeout / loaded event trace);
* `main`'s clamping of the user-requested page count.

External capabilities (BeautifulSoup element lookup, Python string
truthiness, `urllib.parse.urljoin`, Python `str.startswith`) are modelled
explicitly; wall-clock values (`created_at`, `time.sleep`) are omitted as
they carry no information the claims depend on.
-/

/-- A markup element as seen by `get_text`: `raw` is the element's text
content before stripping. -/
structure Elem where
  raw : String
deriving Repr, DecidableEq

/-- Python `str.strip()`: surrounding whitespace removed, over the
character list of the string. -/
def pystrip (s : String) : String :=
  ⟨(((s.data.dropWhile Char.isWhitespace).reverse.dropWhile
      Char.isWhitespace).reverse)⟩

/-- Models BeautifulSoup `elem.get_text(strip=True)`: surrounding
whitespace is removed. -/
def getTextStrip (e : Elem) : String :=
  pystrip e.raw

/-- An `img` element: its `src` and `data-src` attributes
(`img_elem.get('src')`, `img_elem.get('data-src')`), absent attributes
being `none`. -/
structure ImgElem where
  src : Option String
  dataSrc : Option String
deriving Repr, DecidableEq

/-- One listing container (`div[data-id]` subtree), recorded by the result
of each selector probe `extract_product_info` performs on it:
`container.find('div', class_='KzDlHZ')` etc. -/
structure Container where
  divKzDlHZ : Option Elem
  aWjcEIp : Option Elem
  aWKTcLC : Option Elem
  div4rR01T : Option Elem
  img : Option ImgElem
  divNx9bqj : Option Elem
  div30jeq3 : Option Elem
  div1WHN1 : Option Elem
deriving Repr, DecidableEq

/-- A container as handed to the extractor: either a well-formed subtree, or
one whose probing raises an unexpected exception (the `except Exception`
arm of `extract_product_info`). -/
inductive ContainerOutcome where
  | ok (c : Container)
  | fault
deriving Repr, DecidableEq

/-- The `product` dict built by `extract_product_info`: each key is set only
when its chain produced a value. -/
structure Product where
  title : Option String
  image_url : Option String
  price : Option String
deriving Repr, DecidableEq

/-- A committed row of the `product_info` table. The sqlite `id` and
`created_at` columns (store-assigned counter and wall-clock stamp) carry no
information the claims depend on and are omitted. -/
structure Row where
  title : String
  image_url : String
  price : String
deriving Repr, DecidableEq

/-- The sqlite store: the list of committed rows, in insertion order. -/
structure Store where
  rows : List Row
deriving Repr, DecidableEq

/-- Python `a or b` on two optional strings, as in
`img_elem.get('src') or img_elem.get('data-src')`: a present but empty
string is falsy and falls through to `b`. -/
def pyOr (a b : Option String) : Option String :=
  match a with
  | some s => if s = "" then b else some s
  | none => b

/-- Python truthiness of `product.get(key)`: true when the key is present
with non-empty text. -/
def pyTruthy : Option String → Bool
  | some s => s != ""
  | none => false

/-- Python `a or b` on two optional elements, as in the selector chains
`container.find(...) or container.find(...)`: an element object is always
truthy, so the first present element wins, whatever its text. -/
def elemOr (a b : Option Elem) : Option Elem :=
  match a with
  | some e => some e
  | none => b

/-- Models Python `s.startswith(pre)`. -/
def startswith (s pre : String) : Bool :=
  pre.data.isPrefixOf s.data

/-- Whether `s` carries a URL scheme (RFC 3986: an alpha character followed
by alphanumerics, `+`, `-` or `.`, up to a colon). Models the scheme test
of `urllib.parse`. -/
def hasScheme (s : String) : Bool :=
  let pre := s.data.takeWhile (fun c => c ≠ ':')
  decide (pre.length < s.data.length) &&
    (match pre with
     | [] => false
     | c :: cs => c.isAlpha && cs.all (fun c => c.isAlpha || c.isDigit || c = '+' || c = '-' || c = '.'))

/-- Scheme of an absolute URL such as "https://www.flipkart.com": the
characters up to the first colon. -/
def schemePart (base : String) : String :=
  ⟨base.data.takeWhile (fun c => c ≠ ':')⟩

/-- Models `urllib.parse.urljoin` (Python standard library, external to the
repository) for the only base this program uses: an absolute http(s) URL
with empty path. Dot-segment normalisation and query/fragment references
are outside the inputs exercised here. -/
def urljoin (base rel : String) : String :=
  if rel = "" then base
  else if hasScheme rel then rel
  else if startswith rel "//" then schemePart base ++ ":" ++ rel
  else if startswith rel "/" then base ++ rel
  else base ++ "/" ++ rel

/-- `self.base_url` as set in `FlipkartScraper.__init__`. -/
def base_url : String := "https://www.flipkart.com"

/-- The title chain of `extract_product_info`: `div.KzDlHZ or a.wjcEIp or
a.WKTcLC`, and only when all three probes return no element, the legacy
probe `div._4rR01T`; the matched element's text is stripped. -/
def titleOf (c : Container) : Option Elem :=
  match elemOr (elemOr c.divKzDlHZ c.aWjcEIp) c.aWKTcLC with
  | some e => some e
  | none => c.div4rR01T

/-- The image chain of `extract_product_info`: first `img` element, its
`src` attribute or, when that is absent or empty, `data-src`; a truthy
source starting with "http" is kept as-is, otherwise it is joined with
`self.base_url`. -/
def imageOf (base : String) (c : Container) : Option String :=
  match c.img with
  | none => none
  | some ie =>
    match pyOr ie.src ie.dataSrc with
    | none => none
    | some s =>
      if s = "" then none
      else some (if startswith s "http" then s else urljoin base s)

/-- The price chain of `extract_product_info`:
`div.Nx9bqj or div._30jeq3 or div._1_WHN1`, text stripped. -/
def priceOf (c : Container) : Option String :=
  match elemOr (elemOr c.divNx9bqj c.div30jeq3) c.div1WHN1 with
  | some e => some (getTextStrip e)
  | none => none

/-- `FlipkartScraper.extract_product_info` on a well-formed container:
build the `product` dict from the three chains and return it only when
`product.get('title')` is truthy. -/
def extract_product_info (base : String) (c : Container) : Option Product :=
  let product : Product :=
    { title := (titleOf c).map getTextStrip
      image_url := imageOf base c
      price := priceOf c }
  if pyTruthy product.title then some product else none

/-- `extract_product_info` including its `except Exception` arm: a fault
while probing the container yields `none`. -/
def extract_product_info_safe (base : String) : ContainerOutcome → Option Product
  | .ok c => extract_product_info base c
  | .fault => none

/-- `FlipkartScraper.validate_product`: every required field (only
`'title'`) must be present and truthy. -/
def validate_product (p : Product) : Bool :=
  pyTruthy p.title

/-- One step of `scrape_page`'s container loop, as an event trace: either
the enumeration yields the next container, or a page-level fault is raised
at that point (the `except Exception` arm of `scrape_page`). -/
inductive PageEvent where
  | container (c : ContainerOutcome)
  | pageFault
deriving Repr, DecidableEq

/-- Outcome of navigating to a URL and waiting for `[data-id]`: the wait
times out (`TimeoutException`), or the page loads and processing unfolds
along the given event trace. -/
inductive PageOutcome where
  | timeout
  | loaded (events : List PageEvent)
deriving Repr, DecidableEq

/-- The records the container loop accepts from a container list:
extracted, then validated. -/
def collectProducts (base : String) (cs : List ContainerOutcome) : List Product :=
  cs.filterMap fun co =>
    match extract_product_info_safe base co with
    | some p => if validate_product p then some p else none
    | none => none

/-- The containers occurring in an event trace. -/
def containersOf (evs : List PageEvent) : List ContainerOutcome :=
  evs.filterMap fun ev =>
    match ev with
    | .container c => some c
    | .pageFault => none

/-- The container loop of `scrape_page` with its exception semantics: `acc`
is the mutable `products` list; a page-level fault aborts the loop and the
handler returns whatever `products` holds at that point. -/
def scrapeLoop (base : String) (acc : List Product) : List PageEvent → List Product
  | [] => acc
  | .container co :: rest =>
    match extract_product_info_safe base co with
    | some p =>
      if validate_product p then scrapeLoop base (acc ++ [p]) rest
      else scrapeLoop base acc rest
    | none => scrapeLoop base acc rest
  | .pageFault :: _ => acc

/-- `FlipkartScraper.scrape_page`: a timeout yields the still-empty
`products` list; otherwise the container loop runs over the page's trace.
Both exception arms return `products` rather than raising. -/
def scrape_page (base : String) : PageOutcome → List Product
  | .timeout => []
  | .loaded evs => scrapeLoop base [] evs

/-- The search URL `search_products` builds for a page number. -/
def search_url (base keyword : String) (page_num : Nat) : String :=
  if page_num = 1 then base ++ "/search?q=" ++ keyword
  else base ++ "/search?q=" ++ keyword ++ "&page=" ++ toString page_num

/-- The page loop of `search_products` over a list of page numbers: a page
with records is appended to `all_products` and the loop continues; an
empty page breaks out, keeping what was collected. The second component is
ghost instrumentation recording which page numbers were fetched, in order;
it adds nothing to the computation. -/
def searchLoop (scrape : Nat → List Product) (acc : List Product) :
    List Nat → List Product × List Nat
  | [] => (acc, [])
  | n :: rest =>
    let products := scrape n
    if products.isEmpty then (acc, [n])
    else
      let r := searchLoop scrape (acc ++ products) rest
      (r.1, n :: r.2)

/-- `FlipkartScraper.search_products` over a page oracle mapping each URL to
its outcome: iterate page numbers `1 .. max_pages`, scraping the
constructed search URL, with the stop-on-empty rule. Returns the aggregate
together with the ghost list of fetched page numbers. -/
def search_products (pages : String → PageOutcome) (base keyword : String)
    (max_pages : Nat) : List Product × List Nat :=
  searchLoop (fun n => scrape_page base (pages (search_url base keyword n)))
    [] (List.range' 1 max_pages)

/-- Fault injection for `insert_products_batch`: which `cursor.execute`
calls raise `sqlite3.Error` (by record position), and whether the final
`conn.commit()` raises. -/
structure FaultModel where
  execFault : Nat → Bool
  commitFault : Bool

/-- The row an execute writes for a product dict:
`product.get('title', '')` and friends default absent keys to `''`. -/
def rowOf (p : Product) : Row :=
  { title := p.title.getD ""
    image_url := p.image_url.getD ""
    price := p.price.getD "" }

/-- The execute loop of `insert_products_batch`: returns the rows pending
in the open transaction, the value of `inserted_count`, and whether an
execute raised (which aborts the loop at that record). The fault predicate
is consumed positionally. -/
def execLoop (f : Nat → Bool) : List Product → List Row × Nat × Bool
  | [] => ([], 0, false)
  | p :: rest =>
    if f 0 then ([], 0, true)
    else
      let r := execLoop (fun j => f (j + 1)) rest
      (rowOf p :: r.1, r.2.1 + 1, r.2.2)

/-- `DatabaseManager.insert_products_batch`: all executes run inside one
connection; an exception (from an execute or from `conn.commit()`) unwinds
the `with` block, rolling the transaction back, and is caught and logged —
the current `inserted_count` is returned either way. Only a fault-free run
commits the pending rows. -/
def insert_products_batch (fm : FaultModel) (st : Store) (ps : List Product) :
    Store × Nat :=
  let r := execLoop fm.execFault ps
  if r.2.2 then (st, r.2.1)
  else if fm.commitFault then (st, r.2.1)
  else ({ rows := st.rows ++ r.1 }, r.2.1)

/-- The `SELECT COUNT(*)` query of `get_product_count`, before exception
handling: raises `sqlite3.Error` when the store faults. -/
def queryCount (countFault : Bool) (st : Store) : Except String Nat :=
  if countFault then .error "sqlite3.Error" else .ok st.rows.length

/-- `DatabaseManager.get_product_count`: the query's result, with any
`sqlite3.Error` caught, logged and turned into `0`. -/
def get_product_count (countFault : Bool) (st : Store) : Nat :=
  match queryCount countFault st with
  | .ok n => n
  | .error _ => 0

/-- `FlipkartScraper.save_products`: an empty batch short-circuits to `0`,
otherwise the batch is handed to the gateway. -/
def save_products (fm : FaultModel) (st : Store) (ps : List Product) :
    Store × Nat :=
  if ps.isEmpty then (st, 0) else insert_products_batch fm st ps

/-- The result dict `run_scraper` assembles. -/
structure RunResult where
  scraped : Nat
  saved : Nat
  total_in_db : Nat
deriving Repr, DecidableEq

/-- `FlipkartScraper.run_scraper`: search, save, count, assemble. The
browser session handling (`finally: self.close()`) manages an external
resource and adds nothing to the state modelled here. -/
def run_scraper (pages : String → PageOutcome) (fm : FaultModel)
    (countFault : Bool) (st : Store) (base keyword : String)
    (max_pages : Nat) : Store × RunResult :=
  let products := (search_products pages base keyword max_pages).1
  let r := save_products fm st products
  let total := get_product_count countFault r.1
  (r.1, { scraped := products.length, saved := r.2, total_in_db := total })

/-- The page-count computation of `main`: a parsed integer input is clamped
with `min(max_pages, 3)`; an empty or unparsable input falls back to the
default `3`. -/
def main_max_pages (inp : Option Int) : Int :=
  match inp with
  | some n => min n 3
  | none => 3

/-- The title chain as the specification words it: across the four
strategies in order, the first one whose stripped text is non-empty wins.
Stated for comparison with `titleOf`, which is what the code does. -/
def spec_title_first_nonempty (c : Container) : Option String :=
  let rec go : List (Option Elem) → Option String
    | [] => none
    | none :: rest => go rest
    | some e :: rest =>
      if getTextStrip e = "" then go rest else some (getTextStrip e)
  go [c.divKzDlHZ, c.aWjcEIp, c.aWKTcLC, c.div4rR01T]

/-! ## Helper lemmas -/

/-- `pyTruthy` holds exactly on present, non-empty text. -/
theorem pyTruthy_iff (o : Option String) :
    pyTruthy o = true ↔ ∃ s, o = some s ∧ s ≠ "" := by
  cases o with
  | none => simp [pyTruthy]
  | some s => simp [pyTruthy]

/-- The search loop fetches at most one page per page number it was given. -/
theorem searchLoop_length_le (scrape : Nat → List Product) :
    ∀ (l : List Nat) (acc : List Product),
      (searchLoop scrape acc l).2.length ≤ l.length := by
  intro l
  induction l with
  | nil => intro acc; simp [searchLoop]
  | cons n rest ih =>
    intro acc
    by_cases h : (scrape n).isEmpty
    · simp [searchLoop, h]
    · simp only [searchLoop, h, if_neg, Bool.not_eq_true, List.length_cons]
      exact Nat.succ_le_succ (ih _)

/-- When every page in the list yields records, the search loop visits them
all and aggregates in order. -/
theorem searchLoop_all_nonempty (scrape : Nat → List Product) :
    ∀ (l : List Nat) (acc : List Product), (∀ n ∈ l, scrape n ≠ []) →
      searchLoop scrape acc l = (acc ++ l.flatMap scrape, l) := by
  intro l
  induction l with
  | nil => intro acc _; simp [searchLoop]
  | cons n rest ih =>
    intro acc h
    have hn : ¬(scrape n).isEmpty := by
      simp only [List.isEmpty_iff]
      exact h n (by simp)
    have hrest : ∀ m ∈ rest, scrape m ≠ [] := fun m hm => h m (by simp [hm])
    simp only [searchLoop, hn, if_neg, Bool.not_eq_true, ih _ hrest,
      List.flatMap_cons, List.append_assoc]

/-- When the pages in `l1` yield records and page `k` yields none, the loop
visits exactly `l1 ++ [k]`, keeping the records collected from `l1`. -/
theorem searchLoop_stops (scrape : Nat → List Product) :
    ∀ (l1 : List Nat) (k : Nat) (l2 : List Nat) (acc : List Product),
      (∀ n ∈ l1, scrape n ≠ []) → scrape k = [] →
      searchLoop scrape acc (l1 ++ k :: l2) =
        (acc ++ l1.flatMap scrape, l1 ++ [k]) := by
  intro l1
  induction l1 with
  | nil =>
    intro k l2 acc _ hk
    simp [searchLoop, hk]
  | cons n rest ih =>
    intro k l2 acc h hk
    have hn : ¬(scrape n).isEmpty := by
      simp only [List.isEmpty_iff]
      exact h n (by simp)
    have hrest : ∀ m ∈ rest, scrape m ≠ [] := fun m hm => h m (by simp [hm])
    rw [List.cons_append]
    simp only [searchLoop, hn, if_neg, Bool.not_eq_true]
    rw [ih k l2 (acc ++ scrape n) hrest hk]
    simp [List.append_assoc]

/-- Every product the search loop returns was in the accumulator or comes
from some scraped page. -/
theorem searchLoop_mem (scrape : Nat → List Product) :
    ∀ (l : List Nat) (acc : List Product) (p : Product),
      p ∈ (searchLoop scrape acc l).1 → p ∈ acc ∨ ∃ n, p ∈ scrape n := by
  intro l
  induction l with
  | nil => intro acc p hp; exact Or.inl (by simpa [searchLoop] using hp)
  | cons n rest ih =>
    intro acc p hp
    by_cases h : (scrape n).isEmpty
    · exact Or.inl (by simpa [searchLoop, h] using hp)
    · simp only [searchLoop, h, if_neg, Bool.not_eq_true] at hp
      rcases ih _ p hp with hacc | hfound
      · rcases List.mem_append.mp hacc with h1 | h2
        · exact Or.inl h1
        · exact Or.inr ⟨n, h2⟩
      · exact Or.inr hfound

/-- A fault-free event trace makes the container loop collect exactly the
accepted records of its containers, after the accumulator. -/
theorem scrapeLoop_no_fault (base : String) :
    ∀ (evs : List PageEvent) (acc : List Product), PageEvent.pageFault ∉ evs →
      scrapeLoop base acc evs = acc ++ collectProducts base (containersOf evs) := by
  intro evs
  induction evs with
  | nil => intro acc _; simp [scrapeLoop, collectProducts, containersOf]
  | cons ev rest ih =>
    intro acc h
    have hrest : PageEvent.pageFault ∉ rest := fun hr => h (by simp [hr])
    cases ev with
    | container co =>
      cases hco : extract_product_info_safe base co with
      | none =>
        simp [scrapeLoop, hco, ih _ hrest, collectProducts, containersOf]
      | some p =>
        by_cases hv : validate_product p
        · simp [scrapeLoop, hco, hv, ih _ hrest, collectProducts, containersOf]
        · simp [scrapeLoop, hco, hv, ih _ hrest, collectProducts, containersOf]
    | pageFault => exact absurd (by simp) h

/-- A page-level fault mid-trace aborts the loop with exactly the records
accepted before the fault. -/
theorem scrapeLoop_fault (base : String) :
    ∀ (evs1 evs2 : List PageEvent) (acc : List Product),
      PageEvent.pageFault ∉ evs1 →
      scrapeLoop base acc (evs1 ++ PageEvent.pageFault :: evs2) =
        acc ++ collectProducts base (containersOf evs1) := by
  intro evs1
  induction evs1 with
  | nil => intro evs2 acc _; simp [scrapeLoop, collectProducts, containersOf]
  | cons ev rest ih =>
    intro evs2 acc h
    have hrest : PageEvent.pageFault ∉ rest := fun hr => h (by simp [hr])
    cases ev with
    | container co =>
      cases hco : extract_product_info_safe base co with
      | none =>
        simp [scrapeLoop, hco, ih _ _ hrest, collectProducts, containersOf]
      | some p =>
        by_cases hv : validate_product p
        · simp [scrapeLoop, hco, hv, ih _ _ hrest, collectProducts, containersOf]
        · simp [scrapeLoop, hco, hv, ih _ _ hrest, collectProducts, containersOf]
    | pageFault => exact absurd (by simp) h

/-- Every record the container loop returns was in the accumulator or
passed validation. -/
theorem scrapeLoop_validated (base : String) :
    ∀ (evs : List PageEvent) (acc : List Product) (p : Product),
      p ∈ scrapeLoop base acc evs → p ∈ acc ∨ validate_product p = true := by
  intro evs
  induction evs with
  | nil => intro acc p hp; exact Or.inl (by simpa [scrapeLoop] using hp)
  | cons ev rest ih =>
    intro acc p hp
    cases ev with
    | container co =>
      cases hco : extract_product_info_safe base co with
      | none =>
        simp only [scrapeLoop, hco] at hp
        exact ih _ p hp
      | some q =>
        by_cases hv : validate_product q
        · simp only [scrapeLoop, hco, hv, if_pos] at hp
          rcases ih _ p hp with hacc | hval
          · rcases List.mem_append.mp hacc with h1 | h2
            · exact Or.inl h1
            · simp only [List.mem_singleton] at h2
              exact Or.inr (h2 ▸ hv)
          · exact Or.inr hval
        · simp only [scrapeLoop, hco, hv, if_neg, Bool.not_eq_true] at hp
          exact ih _ p hp
    | pageFault => exact Or.inl (by simpa [scrapeLoop] using hp)

/-- Every record `scrape_page` returns passed validation. -/
theorem scrape_page_validated (base : String) (po : PageOutcome) (p : Product)
    (hp : p ∈ scrape_page base po) : validate_product p = true := by
  cases po with
  | timeout => simp [scrape_page] at hp
  | loaded evs =>
    rcases scrapeLoop_validated base evs [] p hp with h | h
    · simp at h
    · exact h

/-- Every row pending in the execute loop is the row of some input
product. -/
theorem execLoop_mem :
    ∀ (ps : List Product) (f : Nat → Bool) (r : Row),
      r ∈ (execLoop f ps).1 → ∃ p ∈ ps, r = rowOf p := by
  intro ps
  induction ps with
  | nil => intro f r hr; simp [execLoop] at hr
  | cons p rest ih =>
    intro f r hr
    by_cases h0 : f 0
    · simp [execLoop, h0] at hr
    · simp only [execLoop, h0, if_neg, Bool.not_eq_true, List.mem_cons] at hr
      rcases hr with rfl | hr
      · exact ⟨p, by simp⟩
      · rcases ih _ r hr with ⟨q, hq, rfl⟩
        exact ⟨q, by simp [hq]⟩

/-- With a single fault at position `i`, the execute loop aborts there:
`inserted_count` is `i` and the fault flag is set. -/
theorem execLoop_fault_at :
    ∀ (ps : List Product) (i : Nat) (f : Nat → Bool),
      (∀ j, f j = decide (j = i)) → i < ps.length →
      execLoop f ps = ((ps.take i).map rowOf, i, true) := by
  intro ps
  induction ps with
  | nil => intro i f _ hi; simp at hi
  | cons p rest ih =>
    intro i f hf hi
    cases i with
    | zero =>
      have h0 : f 0 = true := by rw [hf 0]; simp
      simp [execLoop, h0]
    | succ i' =>
      have h0 : f 0 = false := by rw [hf 0]; simp
      have hf' : ∀ j, f (j + 1) = decide (j = i') := by
        intro j; rw [hf (j + 1)]; simp
      have hlen : i' < rest.length := by
        simpa [Nat.succ_lt_succ_iff] using hi
      simp [execLoop, h0, ih i' _ hf' hlen, List.take_succ_cons]

/-- With no execute faults, the loop stages a row per product and counts
them all. -/
theorem execLoop_no_fault :
    ∀ (ps : List Product) (f : Nat → Bool), (∀ j, f j = false) →
      execLoop f ps = (ps.map rowOf, ps.length, false) := by
  intro ps
  induction ps with
  | nil => intro f _; simp [execLoop]
  | cons p rest ih =>
    intro f hf
    have hf' : ∀ j, f (j + 1) = false := fun j => hf (j + 1)
    simp [execLoop, hf 0, ih _ hf']

/-- Every row in the store after a batch insert was already stored or is
the row of some product in the batch. -/
theorem insert_rows_mem (fm : FaultModel) (st : Store) (ps : List Product)
    (row : Row) (hr : row ∈ (insert_products_batch fm st ps).1.rows) :
    row ∈ st.rows ∨ ∃ p ∈ ps, row = rowOf p := by
  unfold insert_products_batch at hr
  by_cases hflag : (execLoop fm.execFault ps).2.2
  · exact Or.inl (by simpa [hflag] using hr)
  · by_cases hc : fm.commitFault
    · exact Or.inl (by simpa [hflag, hc] using hr)
    · simp only [hflag, hc, if_neg, Bool.not_eq_true, if_false] at hr
      rcases List.mem_append.mp hr with h1 | h2
      · exact Or.inl h1
      · exact Or.inr (execLoop_mem ps fm.execFault row h2)

/-- `startswith` agrees with list-prefix on the underlying characters. -/
theorem startswith_iff_data (s pre : String) :
    startswith s pre = true ↔ pre.data <+: s.data := by
  unfold startswith
  exact List.isPrefixOf_iff_prefix

/-- Joining any non-empty scheme-less source onto the program's base URL
yields a URL starting with "https://". -/
theorem urljoin_base_absolute (rel : String) (hne : rel ≠ "")
    (hs : hasScheme rel = false) :
    startswith (urljoin base_url rel) "https://" = true := by
  unfold urljoin
  rw [if_neg hne, if_neg (by simp [hs])]
  by_cases h2 : startswith rel "//"
  · rw [if_pos h2]
    rw [startswith_iff_data, String.data_append, String.data_append]
    rw [show (schemePart base_url).data ++ ":".data = "https:".data by decide]
    rw [show "https://".data = "https:".data ++ ['/', '/'] by decide]
    rw [List.prefix_append_right_inj]
    have := (startswith_iff_data rel "//").mp h2
    simpa using this
  · rw [if_neg h2]
    by_cases h1 : startswith rel "/"
    · rw [if_pos h1]
      rw [startswith_iff_data, String.data_append]
      exact ((startswith_iff_data base_url "https://").mp (by decide)).trans
        (List.prefix_append base_url.data rel.data)
    · rw [if_neg h1]
      rw [startswith_iff_data, String.data_append, String.data_append]
      have hb : "https://".data <+: base_url.data ++ "/".data := by decide
      exact hb.trans (List.prefix_append _ rel.data)

/-! ## Concrete fixtures used by witnesses and counterexamples -/

/-- A well-formed product tile: title under the first strategy, an image
whose source starts with the letters "http" while carrying no scheme. -/
def cPhone : Container :=
  { divKzDlHZ := some ⟨" Phone "⟩, aWjcEIp := none, aWKTcLC := none,
    div4rR01T := none, img := some ⟨some "httpfile.jpg", none⟩,
    divNx9bqj := none, div30jeq3 := none, div1WHN1 := none }

/-- The record `extract_product_info` produces from `cPhone`. -/
def pPhone : Product :=
  { title := some "Phone", image_url := some "httpfile.jpg", price := none }

/-- A tile whose first title strategy matches an element with blank text
while the second strategy holds real text. -/
def cEmptyFirst : Container :=
  { divKzDlHZ := some ⟨"  "⟩, aWjcEIp := some ⟨"Phone X"⟩, aWKTcLC := none,
    div4rR01T := none, img := none,
    divNx9bqj := none, div30jeq3 := none, div1WHN1 := none }

/-- A page oracle on which every page shows one `cPhone` tile. -/
def pagesAllPhone : String → PageOutcome := fun _ =>
  .loaded [.container (.ok cPhone)]

/-- A page oracle whose page-1 search URL (for keyword "x") shows one tile
and whose every other URL shows an empty results page. -/
def pagesOneThenEmpty : String → PageOutcome := fun u =>
  if u = search_url base_url "x" 1 then .loaded [.container (.ok cPhone)]
  else .loaded []

/-- Three products for batch-insert scenarios. -/
def psABC : List Product :=
  [{ title := some "A", image_url := none, price := none },
   { title := some "B", image_url := none, price := none },
   { title := some "C", image_url := none, price := none }]

/-- Every product the aggregate search result contains passed validation. -/
theorem search_products_validated (pages : String → PageOutcome)
    (base kw : String) (mp : Nat) (p : Product)
    (hp : p ∈ (search_products pages base kw mp).1) :
    validate_product p = true := by
  unfold search_products at hp
  rcases searchLoop_mem _ _ _ p hp with h | ⟨n, hn⟩
  · simp at h
  · exact scrape_page_validated base _ p hn

/-! ## Claims -/

/-- C1 (counterexample): in a batch of three records where only the second
record's write faults, the code returns `inserted_count = 1`, the third
record is never attempted, and the rolled-back store gains zero rows — not
the three rows the per-record-isolation reading promises. -/
theorem c1_counterexample :
    (insert_products_batch ⟨fun j => decide (j = 1), false⟩ ⟨[]⟩ psABC).2 = 1 ∧
    (insert_products_batch ⟨fun j => decide (j = 1), false⟩ ⟨[]⟩ psABC).1.rows.length = 0 ∧
    (insert_products_batch ⟨fun j => decide (j = 1), false⟩ ⟨[]⟩ psABC).1.rows.length ≠ 3 := by
  decide

/-- C1 (amended): a fault on a single record's write aborts the batch loop
at that record — the remaining records are not attempted, the transaction
rolls back leaving the store unchanged, and `insert_products_batch`
returns the number of records executed before the fault, without
raising. -/
theorem insert_batch_single_fault_aborts (st : Store) (ps : List Product)
    (i : Nat) (hi : i < ps.length) :
    insert_products_batch ⟨fun j => decide (j = i), false⟩ st ps = (st, i) := by
  simp only [insert_products_batch]
  rw [execLoop_fault_at ps i _ (fun j => rfl) hi]
  simp

/-- Witness for `insert_batch_single_fault_aborts` at a three-record batch
faulting on the second record. -/
theorem insert_batch_single_fault_aborts_witness :
    insert_products_batch ⟨fun j => decide (j = 1), false⟩ ⟨[]⟩ psABC = (⟨[]⟩, 1) :=
  insert_batch_single_fault_aborts ⟨[]⟩ psABC 1 (by decide)

/-- C2 (counterexample): when the commit itself faults on a three-record
batch, the code returns `inserted_count = 3` — not zero — and absorbs the
fault (the caller receives a normal return with an unchanged store). -/
theorem c2_counterexample :
    (insert_products_batch ⟨fun _ => false, true⟩ ⟨[]⟩ psABC).2 = 3 ∧
    (insert_products_batch ⟨fun _ => false, true⟩ ⟨[]⟩ psABC).2 ≠ 0 ∧
    (insert_products_batch ⟨fun _ => false, true⟩ ⟨[]⟩ psABC).1 = ⟨[]⟩ := by
  decide

/-- C2 (amended): on a batch-level commit fault the gateway absorbs the
error — `insert_products_batch` catches and logs it and returns the full
execute count `N` while the store is unchanged; no fault reaches the
caller and nothing is retried. -/
theorem insert_batch_commit_fault_absorbed (st : Store) (ps : List Product) :
    insert_products_batch ⟨fun _ => false, true⟩ st ps = (st, ps.length) := by
  simp only [insert_products_batch]
  rw [execLoop_no_fault ps _ (fun _ => rfl)]
  simp

/-- C10: the store-count operation never raises — the query's
`sqlite3.Error` is caught and turned into `0`, so the reported
total-in-store figure is `0` on any store fault, even when the store holds
rows, and the `RunResult` assembled by `run_scraper` shows `0` there. -/
theorem get_product_count_absorbs_faults :
    (∀ st : Store, get_product_count true st = 0) ∧
    (∀ st : Store, get_product_count false st = st.rows.length) ∧
    (queryCount true ⟨[⟨"A", "", ""⟩, ⟨"B", "", ""⟩]⟩).isOk = false ∧
    get_product_count true ⟨[⟨"A", "", ""⟩, ⟨"B", "", ""⟩]⟩ = 0 ∧
    (∀ (pages : String → PageOutcome) (fm : FaultModel) (st : Store)
      (kw : String) (mp : Nat),
      (run_scraper pages fm true st base_url kw mp).2.total_in_db = 0) := by
  exact ⟨fun st => rfl, fun st => rfl, by decide, rfl,
    fun pages fm st kw mp => rfl⟩

/-- C3 (counterexample): with pages that keep yielding records,
`search_products` called with `max_pages = 10` fetches 10 pages — the
search operation itself applies no clamp to the caller's request. -/
theorem c3_counterexample :
    (search_products pagesAllPhone base_url "smartphone" 10).2.length = 10 ∧
    ¬ (search_products pagesAllPhone base_url "smartphone" 10).2.length ≤ 3 := by
  decide

/-- C3 (amended): `search_products` performs no clamping of its own and
issues at most the caller-passed `max_pages` fetches; the hard ceiling 3
is applied by `main` to the user-entered value, so a run launched through
`main` never issues more than 3 page fetches. -/
theorem search_pages_clamped_in_main :
    (∀ (pages : String → PageOutcome) (kw : String) (mp : Nat),
      (search_products pages base_url kw mp).2.length ≤ mp) ∧
    (∀ (inp : Option Int) (pages : String → PageOutcome) (kw : String),
      (search_products pages base_url kw (main_max_pages inp).toNat).2.length ≤ 3) := by
  have hfetch : ∀ (pages : String → PageOutcome) (kw : String) (mp : Nat),
      (search_products pages base_url kw mp).2.length ≤ mp := by
    intro pages kw mp
    calc (search_products pages base_url kw mp).2.length
        ≤ (List.range' 1 mp).length := searchLoop_length_le _ _ _
      _ = mp := List.length_range' 1 1 mp
  refine ⟨hfetch, fun inp pages kw => le_trans (hfetch pages kw _) ?_⟩
  cases inp with
  | none => simp [main_max_pages]
  | some n =>
    simp only [main_max_pages]
    omega

/-- C4: once a page yields zero validated records, no later page is ever
requested — the pages fetched are exactly `1 .. k` where `k` is the first
empty page — and the records collected from the earlier pages are
returned, not discarded. -/
theorem search_stops_on_empty_page (pages : String → PageOutcome)
    (kw : String) (mp k : Nat) (hk1 : 1 ≤ k) (hkm : k ≤ mp)
    (hbefore : ∀ i ∈ List.range' 1 (k - 1),
      scrape_page base_url (pages (search_url base_url kw i)) ≠ [])
    (hempty : scrape_page base_url (pages (search_url base_url kw k)) = []) :
    search_products pages base_url kw mp =
      ((List.range' 1 (k - 1)).flatMap
        (fun i => scrape_page base_url (pages (search_url base_url kw i))),
        List.range' 1 (k - 1) ++ [k]) := by
  unfold search_products
  have e1 : 1 + 1 * (k - 1) = k := by omega
  have h1 := List.range'_append 1 (k - 1) ((mp - k) + 1) 1
  rw [e1, show (mp - k) + 1 + (k - 1) = mp by omega, List.range'_succ] at h1
  rw [← h1]
  rw [searchLoop_stops _ (List.range' 1 (k - 1)) k
    (List.range' (k + 1) (mp - k) 1) [] hbefore hempty]
  simp

/-- Witness for `search_stops_on_empty_page`: page 1 shows one tile, page 2
is empty, so only pages 1 and 2 are fetched out of the allowed 3 and the
page-1 record is kept. -/
theorem search_stops_on_empty_page_witness :
    search_products pagesOneThenEmpty base_url "x" 3 = ([pPhone], [1, 2]) := by
  rw [search_stops_on_empty_page pagesOneThenEmpty "x" 3 2 (by decide)
    (by decide) (by decide) (by decide)]
  decide

/-- C5: extraction yields a record exactly when the title chain produced
non-empty text; any record returned carries a non-empty title; and a fault
while probing a container yields no record rather than an error. -/
theorem extract_record_iff_nonempty_title (base : String) (c : Container) :
    ((extract_product_info_safe base (.ok c)).isSome = true ↔
      ∃ t, (titleOf c).map getTextStrip = some t ∧ t ≠ "") ∧
    (∀ p, extract_product_info_safe base (.ok c) = some p →
      ∃ t, p.title = some t ∧ t ≠ "") ∧
    extract_product_info_safe base ContainerOutcome.fault = none := by
  refine ⟨?_, ?_, rfl⟩
  · simp only [extract_product_info_safe, extract_product_info]
    by_cases h : pyTruthy ((titleOf c).map getTextStrip)
    · simp only [h, if_pos, Option.isSome_some, true_iff]
      exact (pyTruthy_iff _).mp h
    · simp only [h, Bool.false_eq_true, if_false, Option.isSome_none,
        Bool.false_eq_true, false_iff]
      intro hex
      exact h ((pyTruthy_iff _).mpr hex)
  · intro p hp
    simp only [extract_product_info_safe, extract_product_info] at hp
    by_cases h : pyTruthy ((titleOf c).map getTextStrip)
    · rw [if_pos h] at hp
      rcases (pyTruthy_iff _).mp h with ⟨t, ht, hne⟩
      cases hp
      exact ⟨t, ht, hne⟩
    · rw [if_neg h] at hp
      cases hp

/-- Witness for `extract_record_iff_nonempty_title`: the record extracted
from `cPhone` carries the non-empty title "Phone". -/
theorem extract_record_iff_nonempty_title_witness :
    ∃ t, pPhone.title = some t ∧ t ≠ "" :=
  (extract_record_iff_nonempty_title base_url cPhone).2.1 pPhone (by decide)

/-- C6 (counterexample): on a tile whose first title strategy matches an
element with blank text while the second strategy holds "Phone X", the
chain settles on the empty text — the first matching non-empty result does
not win — and the tile yields no record. -/
theorem c6_counterexample :
    (titleOf cEmptyFirst).map getTextStrip = some "" ∧
    spec_title_first_nonempty cEmptyFirst = some "Phone X" ∧
    (titleOf cEmptyFirst).map getTextStrip ≠ spec_title_first_nonempty cEmptyFirst ∧
    extract_product_info base_url cEmptyFirst = none := by
  decide

/-- C6 (amended): in the title chain, strategies are consulted in order and
the first strategy that matches an element wins even when its trimmed text
is empty — later strategies are never consulted once an element matched —
while the legacy strategy is consulted exactly when none of the first
three matched an element; extracted text is whitespace-trimmed. -/
theorem title_chain_first_element_wins (c : Container) :
    (∀ e, c.divKzDlHZ = some e →
      (titleOf c).map getTextStrip = some (pystrip e.raw)) ∧
    (c.divKzDlHZ = none → ∀ e, c.aWjcEIp = some e →
      (titleOf c).map getTextStrip = some (pystrip e.raw)) ∧
    (c.divKzDlHZ = none → c.aWjcEIp = none → ∀ e, c.aWKTcLC = some e →
      (titleOf c).map getTextStrip = some (pystrip e.raw)) ∧
    (c.divKzDlHZ = none → c.aWjcEIp = none → c.aWKTcLC = none →
      titleOf c = c.div4rR01T) := by
  refine ⟨?_, ?_, ?_, ?_⟩ <;> intros <;>
    simp_all [titleOf, elemOr, getTextStrip]

/-- Witness for `title_chain_first_element_wins`: on `cEmptyFirst` the
first strategy's blank element decides the title. -/
theorem title_chain_first_element_wins_witness :
    (titleOf cEmptyFirst).map getTextStrip = some (pystrip "  ") :=
  (title_chain_first_element_wins cEmptyFirst).1 ⟨"  "⟩ rfl

/-- C7: scraping a page never propagates a fault — a timeout yields exactly
zero records, and a page-level fault mid-enumeration aborts the page
returning exactly the records accepted before the fault. -/
theorem scrape_page_absorbs_faults (base : String) (evs1 evs2 : List PageEvent)
    (h : PageEvent.pageFault ∉ evs1) :
    scrape_page base (.loaded (evs1 ++ PageEvent.pageFault :: evs2)) =
      collectProducts base (containersOf evs1) ∧
    scrape_page base PageOutcome.timeout = [] := by
  refine ⟨?_, rfl⟩
  simp only [scrape_page]
  simpa using scrapeLoop_fault base evs1 evs2 [] h

/-- Witness for `scrape_page_absorbs_faults`: a fault after the first tile
yields just that tile's record; the tile after the fault is dropped. -/
theorem scrape_page_absorbs_faults_witness :
    scrape_page base_url (.loaded ([PageEvent.container (.ok cPhone)] ++
      PageEvent.pageFault :: [PageEvent.container (.ok cPhone)])) = [pPhone] := by
  rw [(scrape_page_absorbs_faults base_url [PageEvent.container (.ok cPhone)]
    [PageEvent.container (.ok cPhone)] (by decide)).1]
  decide

/-- C8: every row a run persists through the gateway carries a non-empty
title — any row of the store after `run_scraper` either predates the run
or has non-empty title text. -/
theorem persisted_rows_have_nonempty_title (pages : String → PageOutcome)
    (fm : FaultModel) (countFault : Bool) (st : Store) (base kw : String)
    (mp : Nat) (row : Row)
    (hrow : row ∈ (run_scraper pages fm countFault st base kw mp).1.rows) :
    row ∈ st.rows ∨ row.title ≠ "" := by
  simp only [run_scraper] at hrow
  by_cases hemp : ((search_products pages base kw mp).1).isEmpty
  · exact Or.inl (by simpa [save_products, hemp] using hrow)
  · simp only [save_products, hemp, if_neg, Bool.not_eq_true] at hrow
    rcases insert_rows_mem fm st _ row hrow with h | ⟨p, hp, rfl⟩
    · exact Or.inl h
    · right
      have hv := search_products_validated pages base kw mp p hp
      rcases (pyTruthy_iff p.title).mp hv with ⟨t, ht, hne⟩
      simpa [rowOf, ht] using hne

/-- Witness for `persisted_rows_have_nonempty_title`: the row persisted for
the `cPhone` tile has the non-empty title "Phone". -/
theorem persisted_rows_have_nonempty_title_witness :
    (⟨"Phone", "httpfile.jpg", ""⟩ : Row) ∈ (Store.mk []).rows ∨
    (⟨"Phone", "httpfile.jpg", ""⟩ : Row).title ≠ "" :=
  persisted_rows_have_nonempty_title pagesAllPhone ⟨fun _ => false, false⟩
    false ⟨[]⟩ base_url "s" 1 _ (by decide)

/-- C9 (counterexample): the relative image source "httpfile.jpg" — it
carries no scheme, so it is not an absolute URL — begins with the letters
"http", so the extractor stores it unchanged instead of resolving it
against the base URL; the stored `image_url` is not absolute. -/
theorem c9_counterexample :
    extract_product_info base_url cPhone = some pPhone ∧
    pPhone.image_url = some "httpfile.jpg" ∧
    hasScheme "httpfile.jpg" = false ∧
    startswith "httpfile.jpg" "https://" = false ∧
    startswith "httpfile.jpg" "http://" = false ∧
    urljoin base_url "httpfile.jpg" ≠ "httpfile.jpg" := by
  decide

/-- C9 (amended): an image source is stored unchanged exactly when it
starts with the literal prefix "http" — a prefix test, not an absoluteness
test; every other source is resolved against the base URL, and when such a
source carries no scheme the resolved value is an absolute "https://"
URL. -/
theorem image_resolution_amended (c : Container) (ie : ImgElem) (src : String)
    (himg : c.img = some ie) (hsrc : pyOr ie.src ie.dataSrc = some src)
    (hne : src ≠ "") :
    (startswith src "http" = true → imageOf base_url c = some src) ∧
    (startswith src "http" = false → hasScheme src = false →
      imageOf base_url c = some (urljoin base_url src) ∧
      startswith (urljoin base_url src) "https://" = true) := by
  constructor
  · intro hh
    simp [imageOf, himg, hsrc, hne, hh]
  · intro hh hsch
    refine ⟨?_, urljoin_base_absolute src hne hsch⟩
    simp [imageOf, himg, hsrc, hne, hh]

/-- Witness for `image_resolution_amended`: the rooted source "/a.png" is
resolved against the base URL into an absolute https URL. -/
theorem image_resolution_amended_witness :
    imageOf base_url ⟨some ⟨"T"⟩, none, none, none,
      some ⟨some "/a.png", none⟩, none, none, none⟩ =
      some (urljoin base_url "/a.png") ∧
    startswith (urljoin base_url "/a.png") "https://" = true :=
  (image_resolution_amended _ ⟨some "/a.png", none⟩ "/a.png" rfl (by decide)
    (by decide)).2 (by decide) (by decide)
